import Mathlib

/-!
Shallow embedding of the city/utility enrichment stage of the akwlib-export
pipeline (src/city.py and src/util.py), together with theorems settling the
frozen claims about its specification.

Modelling conventions:
* A pandas cell that the source reads as a float is modelled by `Val`:
  `Val.num x` is a finite number (rationals stand in for floats, the source
  arithmetic here is only + and *), `Val.nan` is float NaN, and `Val.nonnum`
  is any non-number Python object (string, None, ...), the case that
  `util.chg_nonnum` exists to guard against.
* Columns that are genuinely float-typed (PCE, FuelRefer, FuelCityID) are
  modelled as `Option` (none = NaN).
* Latitude/Longitude are real numbers; a missing coordinate is `none`.
  util.haversine references numpy under the name np although src/util.py
  never imports numpy, so it raises NameError on every call and
  `closest_tmy` always ends in the caller's exception handler; both are
  modelled as unconditionally returning `none`.
* A raised Python exception is modelled by an `Option`-valued function
  returning `none`.
-/

namespace Akw

/-- Model of a pandas cell holding what the source treats as a float:
a finite number, float NaN, or a non-numeric object. -/
inductive Val where
  | num (x : ℚ)
  | nan
  | nonnum
deriving DecidableEq, Repr

/-- True exactly on finite numbers. -/
def Val.isNum : Val → Bool
  | .num _ => true
  | _ => false

/-- Embedding of util.chg_nonnum (src/util.py lines 28-38): anything that is
not a (finite) number is replaced by the substitute value.  In the source a
NaN float is a `numbers.Number` but is still substituted via the
`math.isnan` test, so only `Val.num` survives. -/
def chg_nonnum (val sub_val : Val) : Val :=
  match val with
  | .num x => .num x
  | _ => sub_val

/-- Shorthand for the pervasive source idiom `au.chg_nonnum(v, 0.0)` used as
a float summand. -/
def chg0 (v : Val) : ℚ :=
  match v with
  | .num x => x
  | _ => 0

/-- The one row of the MiscellaneousInformation table that the enrichment
reads (src/city.py lines 44, 59, 153). -/
structure MiscInfo where
  RegulatorySurcharge : Val
  RegulatorySurchargeElectric : Val
deriving Repr

/-- A row of the Utility table after the column drops of src/city.py
lines 48-50.  `ID` is the frame index.  `Typ` models the column named Type
(1 = electric, 2 = gas).  The five Block/Rate tariff columns are kept as the
ten source columns. -/
structure Utility where
  ID : ℕ
  Name : String
  Typ : ℕ
  Active : ℕ
  IsCommercial : ℕ
  PCE : Option ℚ
  ChargesRCC : Bool
  FuelSurcharge : Val
  PurchasedEnergyAdj : Val
  Block1 : Val
  Block2 : Val
  Block3 : Val
  Block4 : Val
  Block5 : Val
  Rate1 : Val
  Rate2 : Val
  Rate3 : Val
  Rate4 : Val
  Rate5 : Val
deriving DecidableEq, Repr

/-- Embedding of the column access util['Block{}'.format(blk)] for
blk in 1..5 (src/city.py line 62).  Any other index would be a KeyError in
the source; the loops below only use 1..5. -/
def getBlock (u : Utility) : ℕ → Val
  | 1 => u.Block1
  | 2 => u.Block2
  | 3 => u.Block3
  | 4 => u.Block4
  | 5 => u.Block5
  | _ => .nonnum

/-- Embedding of the column access util['Rate{}'.format(blk)]
(src/city.py line 63). -/
def getRate (u : Utility) : ℕ → Val
  | 1 => u.Rate1
  | 2 => u.Rate2
  | 3 => u.Rate3
  | 4 => u.Rate4
  | 5 => u.Rate5
  | _ => .nonnum

/-- Embedding of df_util['NameShort'] = df_util['Name'].str[:6]
(src/city.py line 50). -/
def nameShort (u : Utility) : String := u.Name.take 6

/-! ### Tariff Normalizer (src/city.py lines 52-68) -/

/-- The additive adjustment computed once per utility (src/city.py
lines 57-59): fuel surcharge + purchased energy adjustment, plus the
electric regulatory surcharge when the utility charges the RCC; each term
passes through chg_nonnum with substitute 0.0. -/
def adjustFor (misc : MiscInfo) (u : Utility) : ℚ :=
  chg0 u.FuelSurcharge + chg0 u.PurchasedEnergyAdj +
    (if u.ChargesRCC then chg0 misc.RegulatorySurchargeElectric else 0)

/-- One tier of the normalized block list (src/city.py lines 62-66):
threshold and rate are each pushed through chg_nonnum with substitute NaN,
and the adjustment is added exactly when the rate is not NaN. -/
def normTier (misc : MiscInfo) (u : Utility) (blk : ℕ) : Val × Val :=
  let block_kwh := chg_nonnum (getBlock u blk) .nan
  let block_rate := chg_nonnum (getRate u blk) .nan
  (block_kwh,
    match block_rate with
    | .num x => .num (x + adjustFor misc u)
    | v => v)

/-- Embedding of the Blocks column construction (src/city.py lines 60-66):
the five (threshold, effective rate) pairs in positional tier order. -/
def normBlocks (misc : MiscInfo) (u : Utility) : List (Val × Val) :=
  [normTier misc u 1, normTier misc u 2, normTier misc u 3,
   normTier misc u 4, normTier misc u 5]

/-! ### Sort orders used by sort_values (src/city.py lines 121, 151) -/

/-- Lexicographic order on pairs of naturals: the sort key
(IsCommercial, ID) of src/city.py line 151. -/
def pairLE (p q : ℕ × ℕ) : Prop :=
  p.1 < q.1 ∨ (p.1 = q.1 ∧ p.2 ≤ q.2)

instance : DecidableRel pairLE := fun p q => by
  unfold pairLE; infer_instance

instance pairLE_isTotal : IsTotal (ℕ × ℕ) pairLE where
  total p q := by
    rcases lt_trichotomy p.1 q.1 with h | h | h
    · exact Or.inl (Or.inl h)
    · rcases le_total p.2 q.2 with h2 | h2
      · exact Or.inl (Or.inr ⟨h, h2⟩)
      · exact Or.inr (Or.inr ⟨h.symm, h2⟩)
    · exact Or.inr (Or.inl h)

instance pairLE_isTrans : IsTrans (ℕ × ℕ) pairLE where
  trans p q r h1 h2 := by
    rcases h1 with h1 | ⟨e1, l1⟩
    · rcases h2 with h2 | ⟨e2, _⟩
      · exact Or.inl (h1.trans h2)
      · exact Or.inl (e2 ▸ h1)
    · rcases h2 with h2 | ⟨e2, l2⟩
      · exact Or.inl (e1 ▸ h2)
      · exact Or.inr ⟨e1.trans e2, l1.trans l2⟩

/-- Lexicographic order on the sort key (NameShort, IsCommercial, ID) of
src/city.py line 121. -/
def tripleLE (p q : String × ℕ × ℕ) : Prop :=
  p.1 < q.1 ∨ (p.1 = q.1 ∧ pairLE p.2 q.2)

instance : DecidableRel tripleLE := fun p q => by
  unfold tripleLE; infer_instance

instance tripleLE_isTotal : IsTotal (String × ℕ × ℕ) tripleLE where
  total p q := by
    rcases lt_trichotomy p.1 q.1 with h | h | h
    · exact Or.inl (Or.inl h)
    · rcases pairLE_isTotal.total p.2 q.2 with h2 | h2
      · exact Or.inl (Or.inr ⟨h, h2⟩)
      · exact Or.inr (Or.inr ⟨h.symm, h2⟩)
    · exact Or.inr (Or.inl h)

instance tripleLE_isTrans : IsTrans (String × ℕ × ℕ) tripleLE where
  trans p q r h1 h2 := by
    rcases h1 with h1 | ⟨e1, l1⟩
    · rcases h2 with h2 | ⟨e2, _⟩
      · exact Or.inl (h1.trans h2)
      · exact Or.inl (e2 ▸ h1)
    · rcases h2 with h2 | ⟨e2, l2⟩
      · exact Or.inl (e1 ▸ h2)
      · exact Or.inr ⟨e1.trans e2, pairLE_isTrans.trans _ _ _ l1 l2⟩

/-- Sort key of the electric-utility ordering:
(NameShort, IsCommercial, ID), ascending (src/city.py line 121). -/
def elecKey (u : Utility) : String × ℕ × ℕ := (nameShort u, u.IsCommercial, u.ID)

/-- Row order produced by
sort_values(by=['NameShort', 'IsCommercial', 'ID']). -/
def elecLE (u v : Utility) : Prop := tripleLE (elecKey u) (elecKey v)

instance : DecidableRel elecLE := fun _ _ => by
  unfold elecLE; infer_instance

instance : IsTotal Utility elecLE := ⟨fun u v => tripleLE_isTotal.total (elecKey u) (elecKey v)⟩

instance : IsTrans Utility elecLE := ⟨fun u v w => tripleLE_isTrans.trans (elecKey u) (elecKey v) (elecKey w)⟩

/-- Sort key of the gas-utility ordering: (IsCommercial, ID), ascending
(src/city.py line 151). -/
def gasKey (u : Utility) : ℕ × ℕ := (u.IsCommercial, u.ID)

/-- Row order produced by sort_values(by=['IsCommercial', 'ID']). -/
def gasLE (u v : Utility) : Prop := pairLE (gasKey u) (gasKey v)

instance : DecidableRel gasLE := fun _ _ => by
  unfold gasLE; infer_instance

instance : IsTotal Utility gasLE := ⟨fun u v => pairLE_isTotal.total (gasKey u) (gasKey v)⟩

instance : IsTrans Utility gasLE := ⟨fun u v w => pairLE_isTrans.trans (gasKey u) (gasKey v) (gasKey w)⟩

/-! ### Electric Utility Resolver (src/city.py lines 117-127) -/

/-- Filter of src/city.py line 120: linked utilities of type electric (1)
that are active. -/
def elecFilter (cityUtils : List Utility) : List Utility :=
  cityUtils.filter (fun u => u.Typ == 1 && u.Active == 1)

/-- The sorted active electric utilities of a community
(src/city.py lines 120-121). -/
def elecUtils (cityUtils : List Utility) : List Utility :=
  List.insertionSort elecLE (elecFilter cityUtils)

/-- ID number of the synthetic Self-Generation utility
(src/city.py line 104). -/
def SELF_GEN_ID : ℕ := 131

/-- Embedding of src/city.py lines 122-127: the list of
(Name, ID) pairs of the sorted active electric utilities, or the single
synthetic self-generation entry when there are none. -/
def elecResolve (cityUtils : List Utility) : List (String × ℕ) :=
  let e := elecUtils cityUtils
  if e.length > 0 then e.map (fun u => (u.Name, u.ID))
  else [("Self Generation", SELF_GEN_ID)]

/-! ### Gas price (src/city.py lines 143-164) -/

/-- Filter of src/city.py line 148: linked utilities of type gas (2) that
are active. -/
def gasFilter (cityUtils : List Utility) : List Utility :=
  cityUtils.filter (fun u => u.Typ == 2 && u.Active == 1)

/-- Embedding of gas_utils.sort_values(by=['IsCommercial', 'ID']).iloc[0]
(src/city.py line 151): the head of the sorted list, none when the list is
empty. -/
def gasUtilSel (l : List Utility) : Option Utility :=
  (List.insertionSort gasLE l).head?

/-- The regulatory surcharge multiplier for the gas price
(src/city.py line 153). -/
def regMult (misc : MiscInfo) (u : Utility) : ℚ :=
  if u.ChargesRCC then 1 + chg0 misc.RegulatorySurcharge else 1

/-- Evaluation of the selected tier (src/city.py lines 158-161):
gas_price = Rate{b} + chg_nonnum(FuelSurcharge, 0) +
chg_nonnum(PurchasedEnergyAdj, 0), then gas_price *= reg_sur_mult.
A NaN rate propagates to a NaN price; a non-numeric rate raises a
TypeError in the source (float addition with a non-number), modelled as
none. -/
def gasTake (misc : MiscInfo) (u : Utility) (b : ℕ) : Option Val :=
  match getRate u b with
  | .num r => some (.num ((r + chg0 u.FuelSurcharge + chg0 u.PurchasedEnergyAdj)
      * regMult misc u))
  | .nan => some .nan
  | .nonnum => none

/-- The block walk of src/city.py lines 155-162 over the remaining tier
indices: a tier is taken when math.isnan(Block{b}) or Block{b} >= 130;
math.isnan applied to a non-number raises a TypeError in the source,
modelled as none.  If no tier is taken, gas_price keeps its initial NaN. -/
def gasBlockLoop (misc : MiscInfo) (u : Utility) : List ℕ → Option Val
  | [] => some .nan
  | b :: rest =>
    match getBlock u b with
    | .nonnum => none
    | .nan => gasTake misc u b
    | .num x => if 130 ≤ x then gasTake misc u b else gasBlockLoop misc u rest

/-- Gas price computation for the selected utility
(src/city.py lines 152-162). -/
def gasPriceCalc (misc : MiscInfo) (u : Utility) : Option Val :=
  gasBlockLoop misc u [1, 2, 3, 4, 5]

/-- Embedding of the per-community gas price (src/city.py lines 147-164):
NaN when no active gas utility is linked, otherwise the block-walk price of
the (IsCommercial, ID)-minimal active gas utility.  The outer none models a
raised exception. -/
def cityGasPrice (misc : MiscInfo) (cityUtils : List Utility) : Option Val :=
  match gasUtilSel (gasFilter cityUtils) with
  | none => some .nan
  | some u => gasPriceCalc misc u

/-! ### Haversine distance and the Nearest-Site Resolver
(src/util.py lines 40-52, src/city.py lines 15-23) -/

/-- Embedding of util.haversine (src/util.py lines 40-52).  The body uses
np.radians, np.sin, np.cos, np.arcsin and np.sqrt, but src/util.py imports
only os, math, numbers and glob — numpy is never imported under the name
np, and no other module injects it — so every call raises NameError at its
first statement before any distance is computed.  Modelled as
unconditional failure (none), whatever the coordinates. -/
def haversine (lat1 lon1 lat2 lon2 : ℝ) : Option ℝ := none

/-- A row of the TMY3 site metadata table (built in src/tmy.py
lines 33-41, 83-84); tmy_id is the frame index. -/
structure TMYSite where
  tmy_id : ℤ
  city : String
  state : String
  latitude : ℝ
  longitude : ℝ

/-- Embedding of closest_tmy (src/city.py lines 15-23).  Its first
statement calls util.haversine, which raises NameError on every call (see
haversine above), so the idxmin / label lookup in the remaining statements
is never reached and closest_tmy always raises — for every community,
whether or not its coordinates are present.  Modelled as none; the caller
catches the exception and substitutes sentinel values
(src/city.py lines 108-113). -/
def closest_tmy (lat lon : Option ℝ) (dft : List TMYSite) :
    Option (ℤ × String) :=
  match haversine (lat.getD 0) (lon.getD 0) 0 0 with
  | none => none
  | some _ => none

/-! ### The city table -/

/-- A row of the City table after the projection of src/city.py
lines 71-91.  ID is the frame index; Active is consumed by the filter and
not retained.  Latitude/Longitude are floats whose NaN is modelled by none.
FuelRefer and FuelCityID are float columns (none = NaN).  `data` holds the
remaining scalar columns in frame order by column name (the region ids,
improvement cost level, the eight static fuel-price columns ending in
Price, and the two sales-tax columns). -/
structure City where
  ID : ℕ
  Name : String
  Latitude : Option ℝ
  Longitude : Option ℝ
  Active : ℕ
  FuelRefer : Option ℚ
  FuelCityID : Option ℚ
  data : List (String × Val)

/-- Embedding of the row filter of src/city.py line 71:
dropna(subset=['Latitude']).query('Active == 1').  Rows without a latitude
or not active are removed from the table before enrichment. -/
def activeCities (cities : List City) : List City :=
  cities.filter (fun c => c.Latitude.isSome && c.Active == 1)

/-- An enriched row of the City table: the retained input columns plus the
columns added in src/city.py lines 169-172; the GasPrice column is appended
to `data`. -/
structure CityRow where
  ID : ℕ
  Name : String
  Latitude : Option ℝ
  Longitude : Option ℝ
  FuelRefer : Option ℚ
  FuelCityID : Option ℚ
  TMYid : ℤ
  TMYname : String
  ElecUtilities : List (String × ℕ)
  data : List (String × Val)

/-! ### Subsidy (PCE) back-fill (src/city.py lines 129-141) -/

/-- Embedding of pandas Series.max with skipna over the PCE column:
NaN entries are skipped; the max of an all-NaN or empty column is NaN
(none).  maxStep combines one cell with the running maximum. -/
def maxStep (v r : Option ℚ) : Option ℚ :=
  match v, r with
  | none, r => r
  | some x, none => some x
  | some x, some m => some (max x m)

def seriesMax : List (Option ℚ) → Option ℚ
  | [] => none
  | v :: rest => maxStep v (seriesMax rest)

/-- One global-table write df_util.loc[ix, 'PCE'] = pce_val
(src/city.py line 141). -/
def setPCE (dfUtil : List Utility) (uid : ℕ) (m : ℚ) : List Utility :=
  dfUtil.map (fun w => if w.ID = uid then { w with PCE := some m } else w)

/-- Embedding of src/city.py lines 137-141: the maximal PCE among the
community's filtered electric utilities (NaN skipped); when it is strictly
positive, every filtered utility whose own PCE is NaN gets it written into
the global utility table.  A NaN maximum fails the > 0 test. -/
def pceUpdate (dfUtil : List Utility) (elec : List Utility) : List Utility :=
  match seriesMax (elec.map (fun u => u.PCE)) with
  | some m =>
    if 0 < m then
      elec.foldl (fun acc u => if u.PCE = none then setPCE acc u.ID m else acc)
        dfUtil
    else dfUtil
  | none => dfUtil

/-- Specification-side predicate: the back-fill loop writes PCE into a
global row w exactly when some filtered electric utility has a missing PCE
and shares the identifier. -/
def backfills (elec : List Utility) (w : Utility) : Bool :=
  elec.any (fun u => decide (u.PCE = none) && u.ID == w.ID)

/-! ### The per-community enrichment step (src/city.py lines 105-164) -/

/-- Embedding of src/city.py lines 118-119: the utilities linked to a
community, in link-row order; a link to an ID absent from the utility table
is a KeyError in the source (none). -/
def linkedUtils (links : List (ℕ × ℕ)) (dfUtil : List Utility) (cid : ℕ) :
    Option (List Utility) :=
  ((links.filter (fun l => l.1 == cid)).map (fun l => l.2)).mapM
    (fun uid => dfUtil.find? (fun u => u.ID == uid))

/-- One iteration of the city loop (src/city.py lines 105-164): resolves
the nearest TMY site (exceptions caught, sentinel 0 and empty label),
the electric utilities, the PCE back-fill into the global utility table,
and the gas price.  Returns the enriched row and the updated global
utility table; none models an uncaught exception. -/
def cityStep (misc : MiscInfo) (tmyMeta : List TMYSite)
    (links : List (ℕ × ℕ)) (st : List Utility) (c : City) :
    Option (CityRow × List Utility) :=
  let tmyRes := match closest_tmy c.Latitude c.Longitude tmyMeta with
    | some p => p
    | none => (0, "")
  match linkedUtils links st c.ID with
  | none => none
  | some cityUtils =>
    let st2 := pceUpdate st (elecUtils cityUtils)
    match cityGasPrice misc cityUtils with
    | none => none
    | some gp =>
      some ({ ID := c.ID, Name := c.Name, Latitude := c.Latitude,
              Longitude := c.Longitude, FuelRefer := c.FuelRefer,
              FuelCityID := c.FuelCityID, TMYid := tmyRes.1,
              TMYname := tmyRes.2, ElecUtilities := elecResolve cityUtils,
              data := c.data ++ [("GasPrice", gp)] }, st2)

/-- The city loop (src/city.py lines 105-164), threading the shared global
utility table through the per-community steps. -/
def processCities (misc : MiscInfo) (tmyMeta : List TMYSite)
    (links : List (ℕ × ℕ)) :
    List Utility → List City → Option (List CityRow × List Utility)
  | st, [] => some ([], st)
  | st, c :: cs =>
    match cityStep misc tmyMeta links st c with
    | none => none
    | some (row, st2) =>
      match processCities misc tmyMeta links st2 cs with
      | none => none
      | some (rows, st3) => some (row :: rows, st3)

/-! ### Fuel Price Propagator (src/city.py lines 180-188) -/

/-- Column read cty_fuel[c]; reading a column absent from the row is a
KeyError in the source, the rows built here always carry the column. -/
def getCol (row : List (String × Val)) (c : String) : Val :=
  match row.find? (fun p => p.1 == c) with
  | some p => p.2
  | none => .nonnum

/-- Embedding of the Python test c.endswith(suffix) on column names. -/
def pyEndsWith (s suffix : String) : Bool :=
  suffix.data.isSuffixOf s.data

/-- The inner column loop of src/city.py lines 186-188: every column whose
name ends in Price is overwritten with the target row's value. -/
def transferPrices (dst src : List (String × Val)) : List (String × Val) :=
  dst.map (fun p => if pyEndsWith p.1 "Price" then (p.1, getCol src p.1) else p)

/-- Embedding of Python int() applied to a float: truncation toward zero;
int(nan) raises (none). -/
def pyInt (v : Option ℚ) : Option ℤ :=
  v.map (fun q => if 0 ≤ q then ⌊q⌋ else ⌈q⌉)

/-- One iteration of the referral loop (src/city.py lines 182-188) on the
current table: look up the target row by label (KeyError → none) and
overwrite the price columns of the referring row. -/
def referStep (rows : List CityRow) (p : ℕ × Option ℚ) : Option (List CityRow) :=
  match pyInt p.2 with
  | none => none
  | some tid =>
    match rows.find? (fun r => (r.ID : ℤ) == tid) with
    | none => none
    | some tgt =>
      some (rows.map (fun r =>
        if r.ID = p.1 then { r with data := transferPrices r.data tgt.data }
        else r))

/-- The referral rows are snapshotted up front by
df_city.query('FuelRefer > 0'); a NaN FuelRefer fails the comparison. -/
def referPred (r : CityRow) : Bool :=
  match r.FuelRefer with
  | some x => 0 < x
  | none => false

/-- Sequential application of the referral steps to the evolving table. -/
def referLoop : List (ℕ × Option ℚ) → List CityRow → Option (List CityRow)
  | [], rows => some rows
  | p :: ps, rows =>
    match referStep rows p with
    | none => none
    | some rows2 => referLoop ps rows2

/-- Embedding of the fuel-price propagation pass
(src/city.py lines 180-188). -/
def fuelReferPass (rows : List CityRow) : Option (List CityRow) :=
  referLoop ((rows.filter referPred).map (fun r => (r.ID, r.FuelCityID))) rows

/-- The whole enrichment of the city table relevant to the claims: row
filter, per-community loop, then the fuel-price propagation pass. -/
def processCityTable (misc : MiscInfo) (tmyMeta : List TMYSite)
    (links : List (ℕ × ℕ)) (dfUtil : List Utility) (cities : List City) :
    Option (List CityRow × List Utility) :=
  match processCities misc tmyMeta links dfUtil (activeCities cities) with
  | none => none
  | some (rows, st) =>
    match fuelReferPass rows with
    | none => none
    | some rows2 => some (rows2, st)

/-! ### Usage Profile Assigner (src/city.py lines 227-288) -/

/-- A row of the monthly average-use survey table
(src/city.py lines 227-241): census area, city name (the literal non hub
marks an area aggregate), and the twelve monthly values. -/
structure UseRow where
  census_area : String
  city : String
  mo : List ℚ
deriving DecidableEq, Repr

/-- Column access row[str(i)] for month i (1-based in the source; here the
0-based position in `mo`). -/
def monthVal (r : UseRow) (i : ℕ) : ℚ := r.mo.getD i 0

/-- Embedding of avg_use = sum(mo_uses) / 12.0 (src/city.py line 237). -/
def annualAvg (r : UseRow) : ℚ := ((List.range 12).map (monthVal r)).sum / 12

/-- The hub rows with annual average above 500
(src/city.py lines 246-247). -/
def lgHubs (dfAvg : List UseRow) : List UseRow :=
  (dfAvg.filter (fun r => r.city != "non hub")).filter
    (fun r => decide (500 < annualAvg r))

/-- Embedding of the default usage profile (src/city.py lines 243-251):
the column-wise mean of the large-hub rows, computed once per run; the
mean of an empty selection is NaN. -/
def defaultUse (dfAvg : List UseRow) : List Val :=
  let lg := lgHubs dfAvg
  (List.range 12).map (fun i =>
    if lg.length = 0 then Val.nan
    else Val.num (((lg.map (fun r => monthVal r i)).sum / lg.length : ℚ)))

/-- The candidate pool set(df_avg_use.city) - non hub
(src/city.py line 256). -/
def hubCities (dfAvg : List UseRow) : List String :=
  ((dfAvg.map (fun r => r.city)).filter (fun c => c != "non hub")).dedup

/-- The candidate pool of census areas holding non-hub aggregates
(src/city.py line 259). -/
def censusAreas (dfAvg : List UseRow) : List String :=
  ((dfAvg.filter (fun r => r.city == "non hub")).map
    (fun r => r.census_area)).dedup

/-- Embedding of the per-community usage assignment
(src/city.py lines 262-287).  The fuzzy matcher process.extractOne is an
external library; it is abstracted as the oracle argument returning the
best candidate and its score.  A match below 90 falls back to the default
profile; at or above 90 the first matching survey row's twelve values are
used (an empty query result would raise at iloc[0], modelled none). -/
def usageFor (oracle : String → List String → String × ℕ)
    (dfAvg : List UseRow) (default_use : List Val)
    (name carea : String) (is_hub : Bool) : Option (List Val) :=
  if is_hub then
    let m := oracle name (hubCities dfAvg)
    if 90 ≤ m.2 then
      match dfAvg.find? (fun r => r.city == m.1) with
      | some row => some ((List.range 12).map (fun i => Val.num (monthVal row i)))
      | none => none
    else some default_use
  else
    let m := oracle carea (censusAreas dfAvg)
    if 90 ≤ m.2 then
      match dfAvg.find? (fun r => r.census_area == m.1 && r.city == "non hub") with
      | some row => some ((List.range 12).map (fun i => Val.num (monthVal row i)))
      | none => none
    else some default_use

/-! ## Concrete records used in witnesses and counterexamples -/

/-- A miscellaneous-information record with numeric surcharges. -/
def miscW : MiscInfo :=
  { RegulatorySurcharge := .num (3/100),
    RegulatorySurchargeElectric := .num (3/100) }

/-- A utility record whose optional fields are all absent; concrete
records below override the relevant fields. -/
def baseU : Utility :=
  { ID := 0, Name := "", Typ := 0, Active := 0, IsCommercial := 0,
    PCE := none, ChargesRCC := false, FuelSurcharge := .nan,
    PurchasedEnergyAdj := .nan,
    Block1 := .nan, Block2 := .nan, Block3 := .nan, Block4 := .nan,
    Block5 := .nan,
    Rate1 := .nan, Rate2 := .nan, Rate3 := .nan, Rate4 := .nan,
    Rate5 := .nan }

/-- An electric utility with one tariff tier: threshold 100, rate 0.10,
fuel surcharge 0.01, no purchased-energy adjustment, no RCC. -/
def uTarW : Utility :=
  { baseU with
    ID := 10, Name := "Util A", Typ := 1, Active := 1,
    FuelSurcharge := .num (1/100), Block1 := .num 100, Rate1 := .num (1/10) }

/-- The gas utility of the worked spec example: blocks
[(100, 0.10), (missing, 0.08)], surcharge 0.01, adjustment 0.02, no RCC. -/
def uGasW : Utility :=
  { baseU with
    ID := 1, Name := "Gas Co", Typ := 2, Active := 1,
    FuelSurcharge := .num (1/100), PurchasedEnergyAdj := .num (1/50),
    Block1 := .num 100, Rate1 := .num (1/10), Rate2 := .num (2/25) }

/-- A gas utility whose first tier is selected (threshold 150 >= 130) but
whose rate cell holds a non-numeric object. -/
def uBadW : Utility :=
  { baseU with
    ID := 3, Name := "Bad Gas", Typ := 2, Active := 1,
    Block1 := .num 150, Rate1 := .nonnum }

/-- Subsidy example utility U1: active electric with PCE 5. -/
def u1W : Utility :=
  { baseU with
    ID := 1, Name := "U1", Typ := 1, Active := 1, PCE := some 5 }

/-- Subsidy example utility U2: active electric with missing PCE. -/
def u2W : Utility :=
  { baseU with
    ID := 2, Name := "U2", Typ := 1, Active := 1, PCE := none }

/-- A TMY3 site at (61, -150). -/
def s1W : TMYSite :=
  { tmy_id := 7, city := "Anchorage", state := "AK",
    latitude := 61, longitude := -150 }

/-- A second TMY3 site at (64, -147). -/
def s2W : TMYSite :=
  { tmy_id := 9, city := "Fairbanks", state := "AK",
    latitude := 64, longitude := -147 }

/-- An active community lacking a latitude. -/
def cNoLatW : City :=
  { ID := 1, Name := "NoLat", Latitude := none, Longitude := some (-150),
    Active := 1, FuelRefer := none, FuelCityID := none,
    data := [("Oil1Price", .nan)] }

/-- An active community with a latitude but no longitude. -/
def cLonW : City :=
  { ID := 2, Name := "NoLon", Latitude := some 61, Longitude := none,
    Active := 1, FuelRefer := none, FuelCityID := none,
    data := [("Oil1Price", .nan)] }

/-- An enriched-row record with all optional content absent; concrete rows
below override the relevant fields. -/
def baseRow : CityRow :=
  { ID := 0, Name := "", Latitude := none, Longitude := none,
    FuelRefer := none, FuelCityID := none, TMYid := 0, TMYname := "",
    ElecUtilities := [], data := [] }

/-- Referral-chain row A: refers to community 2, own oil price missing. -/
def cA3 : CityRow :=
  { baseRow with
    ID := 1, Name := "A", FuelRefer := some 1,
    FuelCityID := some 2, data := [("Oil1Price", .nan)] }

/-- Referral-chain row B: refers to community 3, own oil price 2. -/
def cB3 : CityRow :=
  { baseRow with
    ID := 2, Name := "B", FuelRefer := some 1,
    FuelCityID := some 3, data := [("Oil1Price", .num 2)] }

/-- Referral-chain row C: no referral, oil price 9. -/
def cC3 : CityRow :=
  { baseRow with
    ID := 3, Name := "C", data := [("Oil1Price", .num 9)] }

/-- Spec-example row A: refers to community 2, oil price missing. -/
def cAW : CityRow :=
  { baseRow with
    ID := 1, Name := "A", FuelRefer := some 1,
    FuelCityID := some 2, data := [("Oil1Price", .nan)] }

/-- Spec-example row B: no referral, oil price 3.50. -/
def cBW : CityRow :=
  { baseRow with
    ID := 2, Name := "B", data := [("Oil1Price", .num (7/2))] }

/-- A referring row carrying a computed GasPrice column. -/
def rG1 : CityRow :=
  { baseRow with
    ID := 1, Name := "G1", FuelRefer := some 1,
    FuelCityID := some 2, data := [("GasPrice", .num 1)] }

/-- The referral target of rG1, with its own GasPrice. -/
def rG2 : CityRow :=
  { baseRow with
    ID := 2, Name := "G2", data := [("GasPrice", .num 4)] }

/-- The enriched row the per-city step produces for cLonW with an empty
link table and empty utility table. -/
def rowLonW : CityRow :=
  { ID := 2, Name := "NoLon", Latitude := some 61, Longitude := none,
    FuelRefer := none, FuelCityID := none, TMYid := 0, TMYname := "",
    ElecUtilities := [("Self Generation", 131)],
    data := [("Oil1Price", .nan), ("GasPrice", .nan)] }

/-- An active community co-located with catalog site s1W. -/
def cGeoW : City :=
  { ID := 3, Name := "Anchorage", Latitude := some 61,
    Longitude := some (-150), Active := 1, FuelRefer := none,
    FuelCityID := none, data := [("Oil1Price", .nan)] }

/-- The enriched row the per-city step produces for cGeoW with an empty
link table and empty utility table: the TMY columns hold the sentinel
values because the resolver always fails. -/
def rowGeoW : CityRow :=
  { ID := 3, Name := "Anchorage", Latitude := some 61,
    Longitude := some (-150), FuelRefer := none, FuelCityID := none,
    TMYid := 0, TMYname := "",
    ElecUtilities := [("Self Generation", 131)],
    data := [("Oil1Price", .nan), ("GasPrice", .nan)] }

/-- The row the propagation step produces for cAW: its price columns
overwritten from cBW. -/
def cAWdone : CityRow :=
  { cAW with data := transferPrices cAW.data cBW.data }

/-- Hub usage record with annual average 600. -/
def h600W : UseRow :=
  { census_area := "Area1", city := "HubA", mo := List.replicate 12 600 }

/-- Hub usage record with annual average 700. -/
def h700W : UseRow :=
  { census_area := "Area2", city := "HubB", mo := List.replicate 12 700 }

/-- Hub usage record with annual average 400. -/
def h400W : UseRow :=
  { census_area := "Area3", city := "HubC", mo := List.replicate 12 400 }

/-- A fuzzy-match oracle that always reports a score below the threshold. -/
def oracleW : String → List String → String × ℕ := fun _ _ => ("", 0)

/-! ## Lemmas about the embedded definitions -/

theorem chg_nonnum_zero (v : Val) : chg_nonnum v (.num 0) = .num (chg0 v) := by
  cases v <;> rfl

theorem normBlocks_length (misc : MiscInfo) (u : Utility) :
    (normBlocks misc u).length = 5 := rfl

theorem normTier_rate_num (misc : MiscInfo) (u : Utility) (blk : ℕ) (x : ℚ)
    (h : getRate u blk = .num x) :
    (normTier misc u blk).2 = .num (x + adjustFor misc u) := by
  simp [normTier, chg_nonnum, h]

theorem normTier_rate_not_num (misc : MiscInfo) (u : Utility) (blk : ℕ)
    (h : (getRate u blk).isNum = false) :
    (normTier misc u blk).2 = .nan := by
  cases hv : getRate u blk <;> simp [Val.isNum, hv] at h ⊢ <;>
    simp [normTier, chg_nonnum, hv]

theorem normTier_threshold (misc : MiscInfo) (u : Utility) (blk : ℕ) :
    (normTier misc u blk).1 = chg_nonnum (getBlock u blk) .nan := rfl

/-- The output rate of a tier is a finite number iff the input rate is. -/
theorem normTier_isNum (misc : MiscInfo) (u : Utility) (blk : ℕ) :
    (normTier misc u blk).2.isNum = (getRate u blk).isNum := by
  cases hv : getRate u blk <;> simp [normTier, chg_nonnum, hv, Val.isNum]

/-- Count of effective (finite-rate) tiers in the normalizer output equals
the count of input blocks with a finite rate. -/
theorem normBlocks_count (misc : MiscInfo) (u : Utility) :
    ((normBlocks misc u).map (fun p => p.2)).countP Val.isNum =
      ([getRate u 1, getRate u 2, getRate u 3, getRate u 4,
        getRate u 5]).countP Val.isNum := by
  simp only [normBlocks, List.map, List.countP_cons, List.countP_nil,
    normTier_isNum]

theorem gasLE_refl (u : Utility) : gasLE u u := Or.inr ⟨rfl, le_refl _⟩

theorem gasUtilSel_mem {l : List Utility} {u : Utility}
    (h : gasUtilSel l = some u) : u ∈ l := by
  unfold gasUtilSel at h
  cases hs : List.insertionSort gasLE l with
  | nil => rw [hs] at h; cases h
  | cons a t =>
    rw [hs] at h
    have ha : a = u := by simpa using h
    have : u ∈ List.insertionSort gasLE l := by
      rw [hs]
      exact List.mem_cons.mpr (Or.inl ha.symm)
    exact (List.perm_insertionSort gasLE l).subset this

theorem gasUtilSel_min {l : List Utility} {u : Utility}
    (h : gasUtilSel l = some u) : ∀ v ∈ l, gasLE u v := by
  intro v hv
  unfold gasUtilSel at h
  cases hs : List.insertionSort gasLE l with
  | nil => rw [hs] at h; cases h
  | cons a t =>
    rw [hs] at h
    have ha : a = u := by simpa using h
    have hsorted := List.sorted_insertionSort gasLE l
    rw [hs] at hsorted
    have hv2 : v ∈ a :: t := by
      rw [← hs]
      exact ((List.perm_insertionSort gasLE l).symm.subset) hv
    rcases List.mem_cons.mp hv2 with rfl | hvt
    · exact ha ▸ gasLE_refl v
    · exact ha ▸ (List.sorted_cons.mp hsorted).1 v hvt

/-- The tier walk stops at the first tier whose threshold is NaN or at
least 130, provided every earlier tier has a numeric threshold below
130. -/
theorem gasBlockLoop_take (misc : MiscInfo) (u : Utility) (b : ℕ)
    (h1 : 1 ≤ b) (h5 : b ≤ 5)
    (hfirst : ∀ j, 1 ≤ j → j < b → ∃ x : ℚ, getBlock u j = .num x ∧ x < 130)
    (hsel : getBlock u b = .nan ∨ ∃ x : ℚ, getBlock u b = .num x ∧ 130 ≤ x) :
    gasPriceCalc misc u = gasTake misc u b := by
  interval_cases b
  · rcases hsel with hnan | ⟨x, hx, hge⟩
    · simp [gasPriceCalc, gasBlockLoop, hnan]
    · simp [gasPriceCalc, gasBlockLoop, hx, hge]
  · obtain ⟨x1, e1, l1⟩ := hfirst 1 (by norm_num) (by norm_num)
    rcases hsel with hnan | ⟨x, hx, hge⟩
    · simp [gasPriceCalc, gasBlockLoop, e1, not_le.mpr l1, hnan]
    · simp [gasPriceCalc, gasBlockLoop, e1, not_le.mpr l1, hx, hge]
  · obtain ⟨x1, e1, l1⟩ := hfirst 1 (by norm_num) (by norm_num)
    obtain ⟨x2, e2, l2⟩ := hfirst 2 (by norm_num) (by norm_num)
    rcases hsel with hnan | ⟨x, hx, hge⟩
    · simp [gasPriceCalc, gasBlockLoop, e1, not_le.mpr l1, e2,
        not_le.mpr l2, hnan]
    · simp [gasPriceCalc, gasBlockLoop, e1, not_le.mpr l1, e2,
        not_le.mpr l2, hx, hge]
  · obtain ⟨x1, e1, l1⟩ := hfirst 1 (by norm_num) (by norm_num)
    obtain ⟨x2, e2, l2⟩ := hfirst 2 (by norm_num) (by norm_num)
    obtain ⟨x3, e3, l3⟩ := hfirst 3 (by norm_num) (by norm_num)
    rcases hsel with hnan | ⟨x, hx, hge⟩
    · simp [gasPriceCalc, gasBlockLoop, e1, not_le.mpr l1, e2,
        not_le.mpr l2, e3, not_le.mpr l3, hnan]
    · simp [gasPriceCalc, gasBlockLoop, e1, not_le.mpr l1, e2,
        not_le.mpr l2, e3, not_le.mpr l3, hx, hge]
  · obtain ⟨x1, e1, l1⟩ := hfirst 1 (by norm_num) (by norm_num)
    obtain ⟨x2, e2, l2⟩ := hfirst 2 (by norm_num) (by norm_num)
    obtain ⟨x3, e3, l3⟩ := hfirst 3 (by norm_num) (by norm_num)
    obtain ⟨x4, e4, l4⟩ := hfirst 4 (by norm_num) (by norm_num)
    rcases hsel with hnan | ⟨x, hx, hge⟩
    · simp [gasPriceCalc, gasBlockLoop, e1, not_le.mpr l1, e2,
        not_le.mpr l2, e3, not_le.mpr l3, e4, not_le.mpr l4, hnan]
    · simp [gasPriceCalc, gasBlockLoop, e1, not_le.mpr l1, e2,
        not_le.mpr l2, e3, not_le.mpr l3, e4, not_le.mpr l4, hx, hge]

theorem seriesMax_none : ∀ {l : List (Option ℚ)}, seriesMax l = none →
    ∀ v ∈ l, v = none := by
  intro l
  induction l with
  | nil => intro _ v hv; cases hv
  | cons v rest ih =>
    intro h w hw
    cases v with
    | none =>
      simp only [seriesMax, maxStep] at h
      rcases List.mem_cons.mp hw with rfl | hwr
      · rfl
      · exact ih h w hwr
    | some y =>
      cases hr : seriesMax rest <;> simp [seriesMax, maxStep, hr] at h

theorem seriesMax_le : ∀ {l : List (Option ℚ)} {m : ℚ}, seriesMax l = some m →
    ∀ v ∈ l, ∀ x : ℚ, v = some x → x ≤ m := by
  intro l
  induction l with
  | nil => intro m h; cases h
  | cons v rest ih =>
    intro m h w hw x hx
    cases v with
    | none =>
      simp only [seriesMax, maxStep] at h
      rcases List.mem_cons.mp hw with rfl | hwr
      · cases hx
      · exact ih h w hwr x hx
    | some y =>
      cases hr : seriesMax rest with
      | none =>
        simp only [seriesMax, maxStep, hr] at h
        have hym : y = m := by simpa using h
        rcases List.mem_cons.mp hw with rfl | hwr
        · have hyx : y = x := by simpa using hx
          exact le_of_eq (hyx ▸ hym)
        · exact absurd (hx ▸ seriesMax_none hr w hwr) (by simp)
      | some mr =>
        simp only [seriesMax, maxStep, hr] at h
        have hmm : max y mr = m := by simpa using h
        rcases List.mem_cons.mp hw with rfl | hwr
        · have hyx : y = x := by simpa using hx
          have h2 : y ≤ m := hmm ▸ le_max_left y mr
          exact hyx ▸ h2
        · have h1 : x ≤ mr := ih hr w hwr x hx
          have h2 : mr ≤ m := hmm ▸ le_max_right y mr
          exact le_trans h1 h2

theorem seriesMax_mem : ∀ {l : List (Option ℚ)} {m : ℚ},
    seriesMax l = some m → some m ∈ l := by
  intro l
  induction l with
  | nil => intro m h; cases h
  | cons v rest ih =>
    intro m h
    cases v with
    | none =>
      simp only [seriesMax, maxStep] at h
      exact List.mem_cons_of_mem _ (ih h)
    | some y =>
      cases hr : seriesMax rest with
      | none =>
        simp only [seriesMax, maxStep, hr] at h
        obtain rfl : y = m := by simpa using h
        exact List.mem_cons_self _ _
      | some mr =>
        simp only [seriesMax, maxStep, hr] at h
        obtain rfl : max y mr = m := by simpa using h
        rcases max_choice y mr with he | he
        · rw [he]
          exact List.mem_cons_self _ _
        · rw [he]
          exact List.mem_cons_of_mem _ (ih hr)

/-- The back-fill fold of src/city.py lines 139-141 is the pointwise map
that sets PCE on exactly the rows some missing-PCE filtered utility
shares an identifier with. -/
theorem pceFold_char (m : ℚ) : ∀ (elec dfUtil : List Utility),
    elec.foldl (fun acc u => if u.PCE = none then setPCE acc u.ID m else acc)
      dfUtil
      = dfUtil.map (fun w =>
          if backfills elec w then { w with PCE := some m } else w) := by
  intro elec
  induction elec with
  | nil =>
    intro d
    simp [backfills]
  | cons u rest ih =>
    intro d
    by_cases hu : u.PCE = none
    · rw [List.foldl_cons, if_pos hu, ih, setPCE, List.map_map]
      have hfg : ((fun w => if backfills rest w then { w with PCE := some m }
            else w) ∘
          (fun w => if w.ID = u.ID then { w with PCE := some m } else w))
          = (fun w => if backfills (u :: rest) w then { w with PCE := some m }
            else w) := by
        funext w
        by_cases hid : w.ID = u.ID
        · have hbeq : (u.ID == w.ID) = true := by simp [hid]
          have hcons : backfills (u :: rest) w = true := by
            simp [backfills, List.any_cons, hu, hbeq]
          have hbw : backfills rest { w with PCE := some m } =
              backfills rest w := rfl
          simp only [Function.comp_apply, if_pos hid, hbw, hcons, if_true]
          cases hbr : backfills rest w <;> simp [hbr]
        · have hbeq : (u.ID == w.ID) = false := by
            simp [beq_eq_false_iff_ne]
            exact fun he => hid he.symm
          have hcons : backfills (u :: rest) w = backfills rest w := by
            simp [backfills, List.any_cons, hbeq]
          simp only [Function.comp_apply, if_neg hid, hcons]
      rw [hfg]
    · rw [List.foldl_cons, if_neg hu, ih]
      have hsame : ∀ w, backfills (u :: rest) w = backfills rest w := by
        intro w
        simp [backfills, List.any_cons, hu]
      simp only [hsame]

/-- The whole back-fill step under a positive maximum. -/
theorem pceUpdate_char (dfUtil elec : List Utility) (m : ℚ)
    (hM : seriesMax (elec.map (fun u => u.PCE)) = some m) (hpos : 0 < m) :
    pceUpdate dfUtil elec = dfUtil.map (fun w =>
      if backfills elec w then { w with PCE := some m } else w) := by
  unfold pceUpdate
  rw [hM]
  dsimp only
  rw [if_pos hpos, pceFold_char]

/-- A successful referral step is the pointwise overwrite of the rows
carrying the referring identifier, with the prices of the row the current
table holds under the target label. -/
theorem referStep_some {rows rows2 : List CityRow} {p : ℕ × Option ℚ}
    (h : referStep rows p = some rows2) :
    ∃ tid tgt, pyInt p.2 = some tid ∧
      rows.find? (fun r => (r.ID : ℤ) == tid) = some tgt ∧
      rows2 = rows.map (fun r => if r.ID = p.1
        then { r with data := transferPrices r.data tgt.data } else r) := by
  unfold referStep at h
  cases hp : pyInt p.2 with
  | none => rw [hp] at h; cases h
  | some tid =>
    rw [hp] at h
    dsimp only at h
    cases hf : rows.find? (fun r => (r.ID : ℤ) == tid) with
    | none => rw [hf] at h; cases h
    | some tgt =>
      rw [hf] at h
      dsimp only at h
      injection h with h2
      exact ⟨tid, tgt, rfl, hf, h2.symm⟩

/-- A successful referral loop maps each row through an ID-preserving
function that is the identity on rows whose identifier never appears as a
referrer in the processed list. -/
theorem referLoop_map : ∀ (ps : List (ℕ × Option ℚ))
    (rows rows2 : List CityRow), referLoop ps rows = some rows2 →
    ∃ F : CityRow → CityRow, rows2 = rows.map F ∧
      (∀ x, (F x).ID = x.ID) ∧
      (∀ x, x.ID ∉ ps.map Prod.fst → F x = x) := by
  intro ps
  induction ps with
  | nil =>
    intro rows rows2 h
    injection h with h2
    refine ⟨id, ?_, fun x => rfl, fun x _ => rfl⟩
    rw [← h2, List.map_id]
  | cons p rest ih =>
    intro rows rows2 h
    unfold referLoop at h
    cases hs : referStep rows p with
    | none => rw [hs] at h; cases h
    | some rows1 =>
      rw [hs] at h
      obtain ⟨tid, tgt, hp, hf, rfl⟩ := referStep_some hs
      obtain ⟨F, hmap, hFID, hFun⟩ := ih _ _ h
      refine ⟨F ∘ (fun r => if r.ID = p.1
        then { r with data := transferPrices r.data tgt.data } else r),
        ?_, ?_, ?_⟩
      · rw [hmap, List.map_map]
      · intro x
        dsimp only [Function.comp_apply]
        by_cases hx : x.ID = p.1
        · rw [if_pos hx]
          exact hFID _
        · rw [if_neg hx]
          exact hFID x
      · intro x hx
        rw [List.map_cons, List.mem_cons] at hx
        push_neg at hx
        obtain ⟨hx1, hx2⟩ := hx
        dsimp only [Function.comp_apply]
        rw [if_neg hx1]
        exact hFun x hx2

/-- Splitting a referral loop over an appended list. -/
theorem referLoop_append : ∀ (a b : List (ℕ × Option ℚ))
    (rows : List CityRow),
    referLoop (a ++ b) rows =
      match referLoop a rows with
      | none => none
      | some r1 => referLoop b r1 := by
  intro a
  induction a with
  | nil => intro b rows; rfl
  | cons p a2 ih =>
    intro b rows
    cases hs : referStep rows p with
    | none => simp only [List.cons_append, referLoop, hs]
    | some r1 =>
      simp only [List.cons_append, referLoop, hs]
      exact ih b r1

/-- Looking up a label in a table with distinct identifiers finds exactly
the known row with that identifier. -/
theorem find_eq_of_mem_nodup {rows : List CityRow}
    (hnd : (rows.map (fun r => r.ID)).Nodup)
    {tgt : CityRow} (htgt : tgt ∈ rows) (tid : ℤ)
    (hid : (tgt.ID : ℤ) = tid) :
    rows.find? (fun r => (r.ID : ℤ) == tid) = some tgt := by
  have hsome : (rows.find? (fun r => (r.ID : ℤ) == tid)).isSome := by
    apply List.find?_isSome.mpr
    exact ⟨tgt, htgt, by simp [hid]⟩
  obtain ⟨x, hx⟩ := Option.isSome_iff_exists.mp hsome
  have hpx := List.find?_some hx
  have hxm : x ∈ rows := List.mem_of_find?_eq_some hx
  have hxid : x.ID = tgt.ID := by
    have h1 : (x.ID : ℤ) = tid := by simpa using hpx
    have h2 : (x.ID : ℤ) = (tgt.ID : ℤ) := h1.trans hid.symm
    exact_mod_cast h2
  have hxe : x = tgt := List.inj_on_of_nodup_map hnd hxm htgt hxid
  rw [hx, hxe]

/-- Reading the first matching column of a cons row. -/
theorem getCol_cons_pos {x : String × Val} {l : List (String × Val)}
    {c : String} (h : (x.1 == c) = true) : getCol (x :: l) c = x.2 := by
  simp [getCol, List.find?_cons, h]

/-- Skipping a non-matching head column. -/
theorem getCol_cons_neg {x : String × Val} {l : List (String × Val)}
    {c : String} (h : (x.1 == c) = false) : getCol (x :: l) c = getCol l c := by
  simp [getCol, List.find?_cons, h]

/-- Reading a price column out of a transferred row gives the source
row's value, provided the destination row carries the column. -/
theorem getCol_transferPrices : ∀ (dst : List (String × Val))
    (src : List (String × Val)) (c : String),
    pyEndsWith c "Price" = true →
    (dst.find? (fun q => q.1 == c)).isSome = true →
    getCol (transferPrices dst src) c = getCol src c := by
  intro dst
  induction dst with
  | nil =>
    intro src c _ hmem
    simp [List.find?] at hmem
  | cons q rest ih =>
    intro src c hc hmem
    have hsplit : transferPrices (q :: rest) src =
        (if pyEndsWith q.1 "Price" then (q.1, getCol src q.1) else q) ::
          transferPrices rest src := rfl
    by_cases hq : q.1 = c
    · have hqe : pyEndsWith q.1 "Price" = true := by rw [hq]; exact hc
      rw [hsplit, if_pos hqe]
      rw [getCol_cons_pos (show ((q.1, getCol src q.1).1 == c) = true by
        simp [hq])]
      rw [hq]
    · have hn : ((if pyEndsWith q.1 "Price"
          then (q.1, getCol src q.1) else q).1 == c) = false := by
        by_cases hpw : pyEndsWith q.1 "Price" <;> simp [hpw, hq]
      have hmem2 : (rest.find? (fun x => x.1 == c)).isSome = true := by
        rw [List.find?_cons] at hmem
        have hb : (q.1 == c) = false := by simp [hq]
        rw [hb] at hmem
        simpa using hmem
      rw [hsplit, getCol_cons_neg hn]
      exact ih src c hc hmem2

theorem monthVal_mk_replicate (ca ci : String) (x : ℚ) (i : ℕ)
    (hi : i < 12) : monthVal ⟨ca, ci, List.replicate 12 x⟩ i = x := by
  unfold monthVal
  dsimp only
  rw [List.getD_eq_getElem?_getD, List.getElem?_replicate, if_pos hi]
  rfl

theorem annualAvg_mk_replicate (ca ci : String) (x : ℚ) :
    annualAvg ⟨ca, ci, List.replicate 12 x⟩ = x := by
  unfold annualAvg
  have hmap : (List.range 12).map (monthVal ⟨ca, ci, List.replicate 12 x⟩) =
      List.replicate 12 x := by
    refine List.eq_replicate_iff.mpr ⟨by simp, ?_⟩
    intro b hb
    obtain ⟨i, hi, rfl⟩ := List.mem_map.mp hb
    exact monthVal_mk_replicate ca ci x i (List.mem_range.mp hi)
  rw [hmap, List.sum_replicate]
  simp only [nsmul_eq_mul]
  norm_num

/-! ## Claim theorems -/

/-- C2: for every utility record the Tariff Normalizer returns the five
(threshold, effective-rate) pairs in positional tier order, each numeric
rate gets fuel surcharge + purchased-energy adjustment + (regulatory
surcharge when the ChargesRCC flag is set) added with non-numeric additive
terms treated as zero, a missing rate stays missing, the number of
effective tiers equals the number of input blocks with a numeric rate, and
the normalizer is total. -/
theorem C2_tariff_normalizer (misc : MiscInfo) (u : Utility) :
    (normBlocks misc u).length = 5 ∧
    (∀ b, 1 ≤ b → b ≤ 5 →
      (normBlocks misc u).getD (b - 1) (.nonnum, .nonnum) = normTier misc u b) ∧
    (∀ b, 1 ≤ b → b ≤ 5 →
      (normTier misc u b).1 = chg_nonnum (getBlock u b) .nan ∧
      (∀ x : ℚ, getRate u b = .num x →
        (normTier misc u b).2 =
          .num (x + (chg0 u.FuelSurcharge + chg0 u.PurchasedEnergyAdj +
            (if u.ChargesRCC then chg0 misc.RegulatorySurchargeElectric
             else 0)))) ∧
      ((getRate u b).isNum = false → (normTier misc u b).2 = .nan)) ∧
    ((normBlocks misc u).map (fun p => p.2)).countP Val.isNum =
      [getRate u 1, getRate u 2, getRate u 3, getRate u 4,
        getRate u 5].countP Val.isNum := by
  refine ⟨rfl, ?_, ?_, normBlocks_count misc u⟩
  · intro b h1 h5
    interval_cases b <;> rfl
  · intro b h1 h5
    exact ⟨normTier_threshold misc u b,
      fun x hx => normTier_rate_num misc u b x hx,
      fun hx => normTier_rate_not_num misc u b hx⟩

/-- C2 witness: on a concrete utility with rate 0.10, fuel surcharge 0.01
and no other additive terms, the first effective tier rate is 0.11. -/
theorem C2_tariff_normalizer_witness :
    ((normBlocks miscW uTarW).getD 0 (.nonnum, .nonnum)).2 = .num (11/100) := by
  have h2 := (C2_tariff_normalizer miscW uTarW).2.1 1 (le_refl 1) (by norm_num)
  have h := ((C2_tariff_normalizer miscW uTarW).2.2.1 1 (le_refl 1)
    (by norm_num)).2.1 (1/10) rfl
  rw [h2, h]
  norm_num [uTarW, baseU, chg0]

/-- C7 counterexample: the gas-price computation is not total on a record
whose selected tier has a non-numeric rate cell: on uBadW (threshold 150,
rate non-numeric) it raises (modelled as none) instead of treating the
tier as absent. -/
theorem C7_counterexample :
    (getRate uBadW 1).isNum = false ∧ getRate uBadW 1 ≠ .nan ∧
    getBlock uBadW 1 = .num 150 ∧
    cityGasPrice miscW [uBadW] = none := by decide

/-- C7 amended: the Tariff Normalizer (but not the gas-price walk) is
total on records with a non-numeric rate where a number is expected: the
tier is treated as absent and the computation always produces its five
pairs. -/
theorem C7_amended (misc : MiscInfo) (u : Utility) (b : ℕ)
    (h1 : 1 ≤ b) (h5 : b ≤ 5) (h : getRate u b = .nonnum) :
    ((normBlocks misc u).getD (b - 1) (.nonnum, .nonnum)).2 = .nan ∧
    (normBlocks misc u).length = 5 := by
  refine ⟨?_, rfl⟩
  have hn : (getRate u b).isNum = false := by rw [h]; rfl
  have := normTier_rate_not_num misc u b hn
  interval_cases b <;> simpa [normBlocks, List.getD] using this

/-- C7 amended witness: the normalizer on the record with the non-numeric
first rate yields an absent first tier. -/
theorem C7_amended_witness :
    ((normBlocks miscW uBadW).getD 0 (.nonnum, .nonnum)).2 = .nan :=
  (C7_amended miscW uBadW 1 (le_refl 1) (by norm_num) rfl).1

/-- C8: the resolved electricity-utility list consists of the linked
utilities with electric type and active flag, sorted ascending by
(short name prefix, commercial flag, identifier), as (name, identifier)
pairs; when that filtered set is empty the list is exactly the synthetic
self-generation entry with sentinel identifier 131, so it is never
empty. -/
theorem C8_elec_resolver (cityUtils : List Utility) :
    (∀ u, u ∈ elecFilter cityUtils ↔
      u ∈ cityUtils ∧ u.Typ = 1 ∧ u.Active = 1) ∧
    List.Sorted elecLE (elecUtils cityUtils) ∧
    (elecUtils cityUtils).Perm (elecFilter cityUtils) ∧
    (elecFilter cityUtils ≠ [] →
      elecResolve cityUtils =
        (elecUtils cityUtils).map (fun u => (u.Name, u.ID))) ∧
    (elecFilter cityUtils = [] →
      elecResolve cityUtils = [("Self Generation", 131)]) ∧
    elecResolve cityUtils ≠ [] := by
  have hperm : (elecUtils cityUtils).Perm (elecFilter cityUtils) :=
    List.perm_insertionSort elecLE (elecFilter cityUtils)
  have hemp : elecFilter cityUtils = [] → elecUtils cityUtils = [] := by
    intro he
    have hl := hperm.length_eq
    rw [he] at hl
    simp only [List.length_nil] at hl
    exact List.eq_nil_of_length_eq_zero hl
  have hpos : elecFilter cityUtils ≠ [] → 0 < (elecUtils cityUtils).length := by
    intro hne
    rw [hperm.length_eq]
    exact List.length_pos.mpr hne
  refine ⟨?_, List.sorted_insertionSort elecLE _, hperm, ?_, ?_, ?_⟩
  · intro u
    simp [elecFilter, List.mem_filter, and_assoc]
  · intro hne
    simp [elecResolve, hpos hne]
  · intro he
    simp [elecResolve, hemp he, SELF_GEN_ID]
  · by_cases hf : elecFilter cityUtils = []
    · simp [elecResolve, hemp hf]
    · have h1 := hpos hf
      have h2 : elecUtils cityUtils ≠ [] := List.length_pos.mp h1
      simp [elecResolve, h1, h2]

/-- C8 witness: a community whose only linked utility is a gas utility has
the single self-generation fallback entry. -/
theorem C8_elec_resolver_witness :
    elecResolve [uGasW] = [("Self Generation", 131)] :=
  (C8_elec_resolver [uGasW]).2.2.2.2.1 (by decide)

/-- C1: for a community with at least one linked active gas utility the
resolver selects the (IsCommercial, ID)-minimal one, walks the five tiers
in positional order to the first tier whose threshold is missing or at
least 130, and the gas price is that tier's rate plus fuel surcharge plus
purchased-energy adjustment (missing additive terms zero), multiplied by
1 + the regulatory surcharge rate exactly when the utility charges the
RCC; with no linked active gas utility the gas price is NaN (absent). -/
theorem C1_gas_price (misc : MiscInfo) (cityUtils : List Utility) :
    (gasFilter cityUtils = [] → cityGasPrice misc cityUtils = some .nan) ∧
    (∀ u, gasUtilSel (gasFilter cityUtils) = some u →
      (u ∈ gasFilter cityUtils ∧ ∀ v ∈ gasFilter cityUtils, gasLE u v) ∧
      (∀ b r, 1 ≤ b → b ≤ 5 →
        (∀ j, 1 ≤ j → j < b → ∃ x : ℚ, getBlock u j = .num x ∧ x < 130) →
        (getBlock u b = .nan ∨ ∃ x : ℚ, getBlock u b = .num x ∧ 130 ≤ x) →
        getRate u b = .num r →
        cityGasPrice misc cityUtils = some (.num
          ((r + chg0 u.FuelSurcharge + chg0 u.PurchasedEnergyAdj) *
            (if u.ChargesRCC then 1 + chg0 misc.RegulatorySurcharge
             else 1))))) := by
  constructor
  · intro h
    simp [cityGasPrice, h, gasUtilSel]
  · intro u hsel
    refine ⟨⟨gasUtilSel_mem hsel, gasUtilSel_min hsel⟩, ?_⟩
    intro b r h1 h5 hfirst hselb hrate
    have hcity : cityGasPrice misc cityUtils = gasPriceCalc misc u := by
      simp [cityGasPrice, hsel]
    rw [hcity, gasBlockLoop_take misc u b h1 h5 hfirst hselb]
    simp [gasTake, hrate, regMult]

/-- C1 witness, the worked spec example: blocks [(100, 0.10),
(missing, 0.08)], surcharge 0.01, adjustment 0.02, no RCC; tier 2 is the
first with missing threshold, so the price is 0.08+0.01+0.02 = 0.11. -/
theorem C1_gas_price_witness :
    cityGasPrice miscW [uGasW] = some (.num (11/100)) := by
  have h := ((C1_gas_price miscW [uGasW]).2 uGasW rfl).2 2 (2/25)
    (by norm_num) (by norm_num)
    (by
      intro j hj1 hj2
      interval_cases j
      exact ⟨100, rfl, by norm_num⟩)
    (Or.inl rfl) rfl
  rw [h]
  norm_num [uGasW, baseU, chg0]

/-- C3: with M the skipna maximum PCE over the filtered electric
utilities, if M is strictly positive then every filtered utility with a
missing PCE has PCE set to M in the global utility table (other rows are
untouched), and the per-community step threads exactly this updated table
onward as the shared state. -/
theorem C3_subsidy_backfill (dfUtil elec : List Utility) (m : ℚ)
    (hM : seriesMax (elec.map (fun u => u.PCE)) = some m) (hpos : 0 < m) :
    (∀ u ∈ elec, ∀ x : ℚ, u.PCE = some x → x ≤ m) ∧
    (∃ u ∈ elec, u.PCE = some m) ∧
    pceUpdate dfUtil elec = dfUtil.map (fun w =>
      if backfills elec w then { w with PCE := some m } else w) ∧
    (∀ u ∈ elec, u.PCE = none →
      ∀ w ∈ pceUpdate dfUtil elec, w.ID = u.ID → w.PCE = some m) ∧
    (∀ misc tmyMeta links st c row st2,
      cityStep misc tmyMeta links st c = some (row, st2) →
      ∃ cu, linkedUtils links st c.ID = some cu ∧
        st2 = pceUpdate st (elecUtils cu)) := by
  have hchar := pceUpdate_char dfUtil elec m hM hpos
  refine ⟨?_, ?_, hchar, ?_, ?_⟩
  · intro u hu x hx
    exact seriesMax_le hM u.PCE (List.mem_map_of_mem _ hu) x hx
  · simpa using seriesMax_mem hM
  · intro u hu hup w hw hid
    rw [hchar] at hw
    obtain ⟨w0, hw0, rfl⟩ := List.mem_map.mp hw
    by_cases hb : backfills elec w0
    · simp [hb]
    · have hid0 : w0.ID = u.ID := by simpa [hb] using hid
      have : backfills elec w0 = true := by
        apply List.any_eq_true.mpr
        exact ⟨u, hu, by simp [hup, hid0.symm]⟩
      exact absurd this (by simp [hb])
  · intro misc tmyMeta links st c row st2 h
    unfold cityStep at h
    cases hlk : linkedUtils links st c.ID with
    | none => rw [hlk] at h; cases h
    | some cu =>
      rw [hlk] at h
      dsimp only at h
      cases hgp : cityGasPrice misc cu with
      | none => rw [hgp] at h; cases h
      | some gp =>
        rw [hgp] at h
        dsimp only at h
        injection h with h2
        have hst : st2 = pceUpdate st (elecUtils cu) :=
          (congrArg Prod.snd h2).symm
        exact ⟨cu, rfl, hst⟩

/-- C3 witness: utilities U1 (PCE 5) and U2 (PCE missing) linked to the
same community both show PCE 5 in the global table afterwards. -/
theorem C3_subsidy_backfill_witness :
    u1W.PCE = some 5 ∧ u2W.PCE = none ∧
    ((pceUpdate [u1W, u2W] [u1W, u2W]).getD 0 baseU).PCE = some 5 ∧
    ((pceUpdate [u1W, u2W] [u1W, u2W]).getD 1 baseU).PCE = some 5 := by
  refine ⟨rfl, rfl, by decide, ?_⟩
  exact (C3_subsidy_backfill [u1W, u2W] [u1W, u2W] 5
      (by decide) (by decide)).2.2.2.1
    u2W (by decide) rfl _ (by decide) (by decide)

/-- C5: the claimed behavior is the clear intent of util.haversine and
closest_tmy but the code cannot exhibit it: util.haversine references
numpy names (np.radians, np.sin, np.cos, np.arcsin, np.sqrt) while
src/util.py never imports numpy, so every call raises NameError, the
resolver never returns a minimum-distance site, and even a community
co-located with a catalog site (cGeoW at site s1W's coordinates) gets the
exception path and the caller's sentinel identifier 0 and empty label
instead of that site's identifier 7. -/
theorem C5_nearest_site_bug :
    (∀ (lat lon : Option ℝ) (dft : List TMYSite),
      closest_tmy lat lon dft = none) ∧
    s1W.tmy_id = 7 ∧ s1W.latitude = 61 ∧ s1W.longitude = -150 ∧
    cGeoW.Latitude = some 61 ∧ cGeoW.Longitude = some (-150) ∧
    closest_tmy cGeoW.Latitude cGeoW.Longitude [s1W, s2W] = none ∧
    cityStep miscW [s1W, s2W] [] [] cGeoW = some (rowGeoW, []) ∧
    rowGeoW.TMYid = 0 ∧ rowGeoW.TMYname = "" :=
  ⟨fun _ _ _ => rfl, rfl, rfl, rfl, rfl, rfl, rfl, rfl, rfl, rfl⟩

/-- C6 counterexample: an active community lacking a latitude is removed
from the table by the dropna of src/city.py line 71 — it does not appear
in the output with sentinel values, contradicting the claim. -/
theorem C6_counterexample :
    cNoLatW.Active = 1 ∧ cNoLatW.Latitude = none ∧
    processCityTable miscW [] [] [] [cNoLatW] = some ([], []) :=
  ⟨rfl, rfl, rfl⟩

/-- C6 amended: communities without a latitude are dropped from the table
entirely; for a community with a latitude but no longitude the resolver
returns no site (the exception path), the failure is caught, and the
community's row carries sentinel identifier 0 and empty label. -/
theorem C6_amended (misc : MiscInfo) (tmyMeta : List TMYSite)
    (links : List (ℕ × ℕ)) (st : List Utility) (c : City)
    (hlon : c.Longitude = none) :
    closest_tmy c.Latitude c.Longitude tmyMeta = none ∧
    (∀ row st2, cityStep misc tmyMeta links st c = some (row, st2) →
      row.ID = c.ID ∧ row.TMYid = 0 ∧ row.TMYname = "") := by
  have hct : closest_tmy c.Latitude c.Longitude tmyMeta = none := by
    rw [hlon]
    cases c.Latitude <;> rfl
  refine ⟨hct, ?_⟩
  intro row st2 h
  unfold cityStep at h
  rw [hct] at h
  cases hlk : linkedUtils links st c.ID with
  | none => rw [hlk] at h; cases h
  | some cu =>
    rw [hlk] at h
    dsimp only at h
    cases hgp : cityGasPrice misc cu with
    | none => rw [hgp] at h; cases h
    | some gp =>
      rw [hgp] at h
      dsimp only at h
      injection h with h2
      have hrow := congrArg Prod.fst h2
      dsimp only at hrow
      refine ⟨?_, ?_, ?_⟩ <;> rw [← hrow]

/-- C6 amended witness: the community with latitude 61 and no longitude
still appears, with TMY identifier 0 and empty label. -/
theorem C6_amended_witness :
    cLonW.Latitude.isSome = true ∧ cLonW.Longitude = none ∧
    rowLonW.ID = cLonW.ID ∧ rowLonW.TMYid = 0 ∧ rowLonW.TMYname = "" := by
  have h := (C6_amended miscW [s1W] [] [] cLonW rfl).2 rowLonW [] rfl
  exact ⟨rfl, rfl, h.1, h.2.1, h.2.2⟩

/-- C4 amended: after the propagation pass, a referring community's price
columns equal the values its target held when the referring row was
processed; when the target community does not itself refer (so its row is
never overwritten), this is the target's final value, as in the claim's
example.  A chain A→B→C processed in table order can leave A's prices
different from B's final ones (see the counterexample), so the claim's
unconditional post-state equality is weakened by the hypothesis that the
target does not refer. -/
theorem C4_amended (rows rows2 : List CityRow) (r tgt : CityRow) (tid : ℤ)
    (hnodup : (rows.map (fun x => x.ID)).Nodup)
    (hr : r ∈ rows) (hrref : referPred r = true)
    (hfc : pyInt r.FuelCityID = some tid)
    (htgt : tgt ∈ rows) (htid : (tgt.ID : ℤ) = tid)
    (htref : referPred tgt = false)
    (hpass : fuelReferPass rows = some rows2) :
    ∀ r2 ∈ rows2, r2.ID = r.ID →
      ∀ c : String, pyEndsWith c "Price" = true →
        (r.data.find? (fun q => q.1 == c)).isSome = true →
        getCol r2.data c = getCol tgt.data c := by
  intro r2 hr2 hid2 c hc hcmem
  unfold fuelReferPass at hpass
  have hrf : r ∈ rows.filter referPred := List.mem_filter.mpr ⟨hr, hrref⟩
  have hrps : (r.ID, r.FuelCityID) ∈
      (rows.filter referPred).map (fun x => (x.ID, x.FuelCityID)) :=
    List.mem_map_of_mem _ hrf
  obtain ⟨ps1, ps2, hsplit⟩ := List.append_of_mem hrps
  have hmapid : ((rows.filter referPred).map
      (fun x => (x.ID, x.FuelCityID))).map Prod.fst =
      (rows.filter referPred).map (fun x => x.ID) := by
    rw [List.map_map]
    rfl
  have hndps : (((rows.filter referPred).map
      (fun x => (x.ID, x.FuelCityID))).map Prod.fst).Nodup := by
    rw [hmapid]
    exact hnodup.sublist ((List.filter_sublist rows).map _)
  have hsplitid : ((rows.filter referPred).map
      (fun x => (x.ID, x.FuelCityID))).map Prod.fst =
      ps1.map Prod.fst ++ r.ID :: ps2.map Prod.fst := by
    rw [hsplit]
    simp
  have hnd2 := hndps
  rw [hsplitid] at hnd2
  have hrid1 : r.ID ∉ ps1.map Prod.fst := fun hmem =>
    (List.disjoint_of_nodup_append hnd2) hmem (List.mem_cons_self _ _)
  have hrid2 : r.ID ∉ ps2.map Prod.fst :=
    (List.nodup_cons.mp hnd2.of_append_right).1
  have htgtid : tgt.ID ∉ ((rows.filter referPred).map
      (fun x => (x.ID, x.FuelCityID))).map Prod.fst := by
    rw [hmapid]
    intro hmem
    obtain ⟨x, hxf, hxid⟩ := List.mem_map.mp hmem
    have hxr : x ∈ rows := (List.mem_filter.mp hxf).1
    have hxp : referPred x = true := (List.mem_filter.mp hxf).2
    have hxe : x = tgt := List.inj_on_of_nodup_map hnodup hxr htgt hxid
    rw [hxe, htref] at hxp
    cases hxp
  rw [hsplit, referLoop_append] at hpass
  cases hla : referLoop ps1 rows with
  | none => rw [hla] at hpass; cases hpass
  | some rowsA =>
    rw [hla] at hpass
    dsimp only at hpass
    unfold referLoop at hpass
    cases hsb : referStep rowsA (r.ID, r.FuelCityID) with
    | none => rw [hsb] at hpass; cases hpass
    | some rowsB =>
      rw [hsb] at hpass
      obtain ⟨F1, hmapA, hF1ID, hF1un⟩ := referLoop_map ps1 rows rowsA hla
      have hF1r : F1 r = r := hF1un r hrid1
      have hF1t : F1 tgt = tgt := hF1un tgt (fun hmem => htgtid (by
        rw [hsplitid]
        exact List.mem_append.mpr (Or.inl hmem)))
      have htgtA : tgt ∈ rowsA := by
        rw [hmapA, ← hF1t]
        exact List.mem_map_of_mem F1 htgt
      have hndA : (rowsA.map (fun x => x.ID)).Nodup := by
        rw [hmapA, List.map_map]
        have hco : ((fun x : CityRow => x.ID) ∘ F1) =
            (fun x : CityRow => x.ID) := funext (fun x => hF1ID x)
        rw [hco]
        exact hnodup
      obtain ⟨tid2, tgt2, hp2, hf2, hmapB⟩ := referStep_some hsb
      have htid2 : tid2 = tid := by
        have hp3 : pyInt r.FuelCityID = some tid2 := hp2
        rw [hfc] at hp3
        injection hp3 with hval
        exact hval.symm
      have hfind : rowsA.find? (fun x => (x.ID : ℤ) == tid2) = some tgt := by
        rw [htid2]
        exact find_eq_of_mem_nodup hndA htgtA tid htid
      have htgt2 : tgt2 = tgt := by
        have := hf2.symm.trans hfind
        injection this
      rw [htgt2] at hmapB
      obtain ⟨F3, hmapC, hF3ID, hF3un⟩ := referLoop_map ps2 rowsB rows2 hpass
      rw [hmapC] at hr2
      obtain ⟨y, hyB, hyr2⟩ := List.mem_map.mp hr2
      rw [hmapB] at hyB
      obtain ⟨x, hxA, hxy⟩ := List.mem_map.mp hyB
      rw [hmapA] at hxA
      obtain ⟨w, hw, hwx⟩ := List.mem_map.mp hxA
      have hupdID : ∀ z : CityRow, (if z.ID = (r.ID, r.FuelCityID).1
          then { z with data := transferPrices z.data tgt.data }
          else z).ID = z.ID := by
        intro z
        by_cases hz : z.ID = (r.ID, r.FuelCityID).1 <;> simp [hz]
      have hwid : w.ID = r.ID := by
        have h1 : r2.ID = (F3 y).ID := by rw [hyr2]
        have h2 : (F3 y).ID = y.ID := hF3ID y
        have h3 : y.ID = x.ID := by
          rw [← hxy]
          exact hupdID x
        have h4 : x.ID = w.ID := by
          rw [← hwx]
          exact hF1ID w
        have := hid2
        rw [h1, h2, h3, h4] at this
        exact this
      have hwr : w = r := List.inj_on_of_nodup_map hnodup hw hr hwid
      have hxr : x = r := by
        rw [← hwx, hwr, hF1r]
      have hy : y = { r with data := transferPrices r.data tgt.data } := by
        rw [← hxy, hxr]
        simp
      have hF3y : F3 y = y := by
        apply hF3un
        rw [hy]
        exact fun hmem => hrid2 hmem
      have hr2y : r2 = { r with data := transferPrices r.data tgt.data } := by
        rw [← hyr2, hF3y, hy]
      rw [hr2y]
      exact getCol_transferPrices r.data tgt.data c hc hcmem

/-- C4 counterexample: rows A (id 1, refers to 2), B (id 2, refers to 3,
oil price 2) and C (id 3, oil price 9) in table order.  The pass copies
B's pre-update price 2 into A and only then C's price 9 into B, so after
the pass A's Oil1Price (2) differs from its target B's (9): the claimed
post-pass equality with the target's field fails. -/
theorem C4_counterexample :
    referPred cA3 = true ∧ cA3.FuelCityID = some 2 ∧ cB3.ID = 2 ∧
    (fuelReferPass [cA3, cB3, cC3]).map
      (fun rs => rs.map (fun r => getCol r.data "Oil1Price"))
      = some [Val.num 2, Val.num 9, Val.num 9] ∧
    Val.num 2 ≠ Val.num 9 := by
  refine ⟨rfl, rfl, rfl, rfl, by decide⟩

/-- C4 amended witness, the spec example: A (refers to B, oil price
missing) and B (oil price 3.50, not referring): after propagation A's
Oil1Price equals 3.50. -/
theorem C4_amended_witness :
    getCol cAWdone.data "Oil1Price" = Val.num (7/2) := by
  have h := C4_amended [cAW, cBW] [cAWdone, cBW] cAW cBW 2
    (by decide) (List.mem_cons_self _ _) (by decide) (by decide)
    (List.mem_cons_of_mem _ (List.mem_cons_self _ _)) (by decide)
    (by decide) rfl cAWdone (List.mem_cons_self _ _) rfl "Oil1Price"
    (by decide) (by decide)
  exact h.trans rfl

/-- C10: the per-community step attaches a GasPrice column to every
produced row, and — because GasPrice ends in Price — a referral step
overwrites the referring row's GasPrice with the target's GasPrice (the
computed gas price is replaced, not only the static fuel prices). -/
theorem C10_gasprice_propagated :
    (∀ misc tmyMeta links st c row st2,
      cityStep misc tmyMeta links st c = some (row, st2) →
      (row.data.find? (fun q => q.1 == "GasPrice")).isSome = true) ∧
    (∀ rows rows2 tid tgt (i : ℕ) (fc : Option ℚ),
      pyInt fc = some tid →
      rows.find? (fun x => (x.ID : ℤ) == tid) = some tgt →
      referStep rows (i, fc) = some rows2 →
      ∀ x ∈ rows, x.ID = i →
        (x.data.find? (fun q => q.1 == "GasPrice")).isSome = true →
        { x with data := transferPrices x.data tgt.data } ∈ rows2 ∧
        getCol (transferPrices x.data tgt.data) "GasPrice" =
          getCol tgt.data "GasPrice") := by
  constructor
  · intro misc tmyMeta links st c row st2 h
    unfold cityStep at h
    cases hlk : linkedUtils links st c.ID with
    | none => rw [hlk] at h; cases h
    | some cu =>
      rw [hlk] at h
      dsimp only at h
      cases hgp : cityGasPrice misc cu with
      | none => rw [hgp] at h; cases h
      | some gp =>
        rw [hgp] at h
        dsimp only at h
        injection h with h2
        have hrow := congrArg Prod.fst h2
        dsimp only at hrow
        rw [← hrow]
        apply (List.find?_isSome.mpr _)
        refine ⟨("GasPrice", gp), ?_, by simp⟩
        exact List.mem_append.mpr (Or.inr (List.mem_cons_self _ _))
  · intro rows rows2 tid tgt i fc hfc hfind hstep x hx hxi hgp
    obtain ⟨tid2, tgt2, hp2, hf2, hmap⟩ := referStep_some hstep
    have htid2 : tid2 = tid := by
      have hp3 : pyInt fc = some tid2 := hp2
      rw [hfc] at hp3
      injection hp3 with hval
      exact hval.symm
    have htgt2 : tgt2 = tgt := by
      rw [htid2] at hf2
      have := hf2.symm.trans hfind
      injection this
    rw [htgt2] at hmap
    constructor
    · rw [hmap]
      have hxid : x.ID = (i, fc).1 := hxi
      have : (if x.ID = (i, fc).1
          then { x with data := transferPrices x.data tgt.data } else x)
          = { x with data := transferPrices x.data tgt.data } := if_pos hxid
      rw [← this]
      exact List.mem_map_of_mem _ hx
    · exact getCol_transferPrices x.data tgt.data "GasPrice" (by decide) hgp

/-- C10 witness: a referring row carrying GasPrice 1 takes its target's
GasPrice 4 in the referral step. -/
theorem C10_gasprice_propagated_witness :
    getCol (transferPrices rG1.data rG2.data) "GasPrice" = Val.num 4 := by
  have h := (C10_gasprice_propagated).2 [rG1, rG2]
    [{ rG1 with data := transferPrices rG1.data rG2.data }, rG2] 2 rG2 1
    (some 2) (by decide) rfl rfl rG1 (List.mem_cons_self _ _) rfl
    (by decide)
  exact h.2.trans rfl

/-- C9: the default usage profile averages, component-wise, exactly the
hub records with annual average strictly above 500 (of {600, 700, 400}
only the first two contribute, giving 650 every month), and every
community — hub with name match below 90, or non-hub with area match
below 90 — is assigned the passed-in default profile computed once from
the survey table. -/
theorem C9_default_usage :
    lgHubs [h600W, h700W, h400W] = [h600W, h700W] ∧
    defaultUse [h600W, h700W, h400W] = List.replicate 12 (Val.num 650) ∧
    (∀ oracle dfAvg default_use (name carea : String),
      (oracle name (hubCities dfAvg)).2 < 90 →
      usageFor oracle dfAvg default_use name carea true = some default_use) ∧
    (∀ oracle dfAvg default_use (name carea : String),
      (oracle carea (censusAreas dfAvg)).2 < 90 →
      usageFor oracle dfAvg default_use name carea false =
        some default_use) := by
  have e6 : annualAvg h600W = 600 := annualAvg_mk_replicate _ _ _
  have e7 : annualAvg h700W = 700 := annualAvg_mk_replicate _ _ _
  have e4 : annualAvg h400W = 400 := annualAvg_mk_replicate _ _ _
  have hlg : lgHubs [h600W, h700W, h400W] = [h600W, h700W] := by
    unfold lgHubs
    have hcity : List.filter (fun r => r.city != "non hub")
        [h600W, h700W, h400W] = [h600W, h700W, h400W] := by decide
    rw [hcity]
    rw [List.filter_cons_of_pos (by
      simp only [decide_eq_true_eq, e6]
      norm_num)]
    rw [List.filter_cons_of_pos (by
      simp only [decide_eq_true_eq, e7]
      norm_num)]
    rw [List.filter_cons_of_neg (by
      simp only [decide_eq_true_eq, e4]
      norm_num)]
    rw [List.filter_nil]
  refine ⟨hlg, ?_, ?_, ?_⟩
  · unfold defaultUse
    rw [hlg]
    refine List.eq_replicate_iff.mpr ⟨by simp, ?_⟩
    intro b hb
    obtain ⟨i, hi, rfl⟩ := List.mem_map.mp hb
    have hi12 : i < 12 := List.mem_range.mp hi
    have hm6 : monthVal h600W i = 600 := monthVal_mk_replicate _ _ _ i hi12
    have hm7 : monthVal h700W i = 700 := monthVal_mk_replicate _ _ _ i hi12
    rw [if_neg (by norm_num : ¬ ([h600W, h700W] : List UseRow).length = 0)]
    simp only [List.map_cons, List.map_nil, List.sum_cons, List.sum_nil,
      hm6, hm7, List.length_cons, List.length_nil]
    norm_num
  · intro oracle dfAvg default_use name carea h
    unfold usageFor
    rw [if_pos rfl, if_neg (not_le.mpr h)]
  · intro oracle dfAvg default_use name carea h
    unfold usageFor
    rw [if_neg (by simp), if_neg (not_le.mpr h)]

/-- C9 witness: with an oracle always scoring 0, both a hub and a
non-hub community receive the default profile. -/
theorem C9_default_usage_witness :
    usageFor oracleW [h600W, h700W, h400W]
      (defaultUse [h600W, h700W, h400W]) "Anytown" "Area9" true =
      some (defaultUse [h600W, h700W, h400W]) ∧
    usageFor oracleW [h600W, h700W, h400W]
      (defaultUse [h600W, h700W, h400W]) "Anytown" "Area9" false =
      some (defaultUse [h600W, h700W, h400W]) :=
  ⟨C9_default_usage.2.2.1 oracleW [h600W, h700W, h400W] _ "Anytown" "Area9"
      (by decide),
   C9_default_usage.2.2.2 oracleW [h600W, h700W, h400W] _ "Anytown" "Area9"
      (by decide)⟩

end Akw
